import Mathlib

/-!
Verification of the github-runners-infra webhook service.

The definitions below are a shallow embedding of the Go sources:
  internal/github/runner.go   (webhook signature verification)
  internal/github/app.go      (GitHub App credential chain, reaper)
  internal/webhook/handler.go (admission pipeline, rate limiter, worker
                               pool, provisioning helpers, destroy callback)
Go strings are modelled as `List Char`, raw byte buffers as `List Nat`
(each entry a byte value), machine integers as `Nat`/`Int` with explicit
reduction modulo 2^32 where 32-bit overflow matters, and `time.Time`
instants as `Int` Unix seconds.  External collaborators (JSON decoding,
RFC3339 parsing, the compute provider) are passed in as explicit function
parameters, mirroring how the handlers consume them through narrow
interfaces.
-/

namespace GHRunners

set_option maxRecDepth 100000

/-! ### 32-bit words and SHA-256 (crypto/sha256 as used by runner.go) -/

/-- Reduce a natural number to a 32-bit word. -/
def w32 (x : Nat) : Nat := x % 4294967296

/-- Rotate a 32-bit word right by `n` bits. -/
def rotr32 (n x : Nat) : Nat := w32 ((x >>> n) ||| (x <<< (32 - n)))

/-- Bitwise complement of a 32-bit word. -/
def not32 (x : Nat) : Nat := x ^^^ 4294967295

/-- SHA-256 Ch function. -/
def shaCh (x y z : Nat) : Nat := (x &&& y) ^^^ (not32 x &&& z)

/-- SHA-256 Maj function. -/
def shaMaj (x y z : Nat) : Nat := (x &&& y) ^^^ (x &&& z) ^^^ (y &&& z)

/-- SHA-256 big sigma 0. -/
def bsig0 (x : Nat) : Nat := rotr32 2 x ^^^ rotr32 13 x ^^^ rotr32 22 x

/-- SHA-256 big sigma 1. -/
def bsig1 (x : Nat) : Nat := rotr32 6 x ^^^ rotr32 11 x ^^^ rotr32 25 x

/-- SHA-256 small sigma 0. -/
def ssig0 (x : Nat) : Nat := rotr32 7 x ^^^ rotr32 18 x ^^^ (x >>> 3)

/-- SHA-256 small sigma 1. -/
def ssig1 (x : Nat) : Nat := rotr32 17 x ^^^ rotr32 19 x ^^^ (x >>> 10)

/-- SHA-256 round constants (FIPS 180-4 section 4.2.2, written in
decimal). -/
def shaK : List Nat :=
  [1116352408, 1899447441, 3049323471, 3921009573, 961987163,
   1508970993, 2453635748, 2870763221, 3624381080, 310598401,
   607225278, 1426881987, 1925078388, 2162078206, 2614888103,
   3248222580, 3835390401, 4022224774, 264347078, 604807628,
   770255983, 1249150122, 1555081692, 1996064986, 2554220882,
   2821834349, 2952996808, 3210313671, 3336571891, 3584528711,
   113926993, 338241895, 666307205, 773529912, 1294757372,
   1396182291, 1695183700, 1986661051, 2177026350, 2456956037,
   2730485921, 2820302411, 3259730800, 3345764771, 3516065817,
   3600352804, 4094571909, 275423344, 430227734, 506948616,
   659060556, 883997877, 958139571, 1322822218, 1537002063,
   1747873779, 1955562222, 2024104815, 2227730452, 2361852424,
   2428436474, 2756734187, 3204031479, 3329325298]

/-- SHA-256 initial hash value (FIPS 180-4 section 5.3.3, decimal). -/
def shaH0 : List Nat :=
  [1779033703, 3144134277, 1013904242, 2773480762,
   1359893119, 2600822924, 528734635, 1541459225]

/-- Extend the 16 block words by `fuel` schedule words (fuel = 48). -/
def buildW : List Nat → Nat → List Nat
  | ws, 0 => ws
  | ws, Nat.succ n =>
    let i := ws.length
    let w := w32 (ssig1 (ws.getD (i - 2) 0) + ws.getD (i - 7) 0 +
                  ssig0 (ws.getD (i - 15) 0) + ws.getD (i - 16) 0)
    buildW (ws ++ [w]) n

/-- One SHA-256 round: `st` is the register list `[a,b,c,d,e,f,g,h]` and
`kw` the sum of round constant and schedule word. -/
def shaRound (st : List Nat) (kw : Nat) : List Nat :=
  match st with
  | [a, b, c, d, e, f, g, h] =>
    let t1 := w32 (h + bsig1 e + shaCh e f g + kw)
    let t2 := w32 (bsig0 a + shaMaj a b c)
    [w32 (t1 + t2), a, b, c, w32 (d + t1), e, f, g]
  | other => other

/-- Compress one 16-word block into the running hash. -/
def shaCompress (h : List Nat) (block : List Nat) : List Nat :=
  let w := buildW block 48
  let kw := (shaK.zip w).map (fun p => p.1 + p.2)
  let st := kw.foldl shaRound h
  (h.zip st).map (fun p => w32 (p.1 + p.2))

/-- Read the big-endian 32-bit word at word index `i` of a byte list. -/
def word32At (bs : List Nat) (i : Nat) : Nat :=
  (bs.getD (4 * i) 0 <<< 24) ||| (bs.getD (4 * i + 1) 0 <<< 16) |||
  (bs.getD (4 * i + 2) 0 <<< 8) ||| bs.getD (4 * i + 3) 0

/-- SHA-256 padding: append 0x80, zeros, and the 64-bit big-endian bit length. -/
def shaPad (msg : List Nat) : List Nat :=
  let len := msg.length
  let zeros := (119 - len % 64) % 64
  let bitLen := 8 * len
  msg ++ [0x80] ++ List.replicate zeros 0 ++
    ([56, 48, 40, 32, 24, 16, 8, 0].map (fun s => (bitLen >>> s) % 256))

/-- The 16-word block at block index `i` of a byte list. -/
def blockAt (bs : List Nat) (i : Nat) : List Nat :=
  (List.range 16).map (fun j => word32At bs (16 * i + j))

/-- Serialize a 32-bit word to 4 big-endian bytes. -/
def wordBytes (w : Nat) : List Nat :=
  [(w >>> 24) % 256, (w >>> 16) % 256, (w >>> 8) % 256, w % 256]

/-- SHA-256 of a byte list, as 32 bytes. -/
def sha256 (msg : List Nat) : List Nat :=
  let padded := shaPad msg
  let nblocks := padded.length / 64
  let hfin := (List.range nblocks).foldl (fun h i => shaCompress h (blockAt padded i)) shaH0
  (hfin.map wordBytes).flatten

/-- HMAC-SHA256 (crypto/hmac with a SHA-256 block size of 64 bytes). -/
def hmacSha256 (key msg : List Nat) : List Nat :=
  let k0 := if 64 < key.length then sha256 key else key
  let kpad := k0 ++ List.replicate (64 - k0.length) 0
  let ipad := kpad.map (fun b => b ^^^ 0x36)
  let opad := kpad.map (fun b => b ^^^ 0x5c)
  sha256 (opad ++ sha256 (ipad ++ msg))

/-! ### Hexadecimal encoding (encoding/hex) -/

/-- Lowercase hex digit for a value below 16 (encoding/hex uses lowercase). -/
def hexDigitChar (d : Nat) : Char :=
  if d < 10 then Char.ofNat (48 + d) else Char.ofNat (87 + d)

/-- Lowercase hex encoding of a byte list (hex.EncodeToString). -/
def hexEncode (bs : List Nat) : List Char :=
  (bs.map (fun b => [hexDigitChar (b / 16), hexDigitChar (b % 16)])).flatten

/-- Value of one hex character; case-insensitive, like encoding/hex decoding. -/
def hexCharVal (c : Char) : Option Nat :=
  if '0' ≤ c ∧ c ≤ '9' then some (c.toNat - 48)
  else if 'a' ≤ c ∧ c ≤ 'f' then some (c.toNat - 87)
  else if 'A' ≤ c ∧ c ≤ 'F' then some (c.toNat - 55)
  else none

/-- Case-insensitive hex decoding of a character list to bytes
(hex.DecodeString; odd length or an invalid character fails). -/
def hexDecode : List Char → Option (List Nat)
  | [] => some []
  | [_] => none
  | c1 :: c2 :: rest =>
    match hexCharVal c1, hexCharVal c2, hexDecode rest with
    | some hi, some lo, some bs => some ((16 * hi + lo) :: bs)
    | _, _, _ => none

/-! ### String helpers (strings package behaviour on ASCII data) -/

/-- ASCII lowercase folding of one character; on ASCII input this matches
the simple case folding used by Go's strings.EqualFold. -/
def toLowerAscii (c : Char) : Char :=
  if 'A' ≤ c ∧ c ≤ 'Z' then Char.ofNat (c.toNat + 32) else c

/-- strings.EqualFold restricted to ASCII case folding. -/
def equalFold (a b : List Char) : Bool :=
  a.map toLowerAscii == b.map toLowerAscii

/-- Whitespace predicate of strings.TrimSpace (unicode.IsSpace on Latin-1). -/
def isGoSpace (c : Char) : Bool :=
  c == ' ' || c == Char.ofNat 9 || c == Char.ofNat 10 || c == Char.ofNat 11 ||
  c == Char.ofNat 12 || c == Char.ofNat 13 || c == Char.ofNat 133 || c == Char.ofNat 160

/-- strings.TrimSpace: drop leading and trailing whitespace. -/
def trimSpace (s : List Char) : List Char :=
  ((s.dropWhile isGoSpace).reverse.dropWhile isGoSpace).reverse

/-- One character of the restrictive allowed set `[a-zA-Z0-9_-]`
(handler.go safeNameRegex character class). -/
def isSafeChar (c : Char) : Bool :=
  c.isAlphanum || c == '-' || c == '_'

/-- handler.go `safeNameRegex = ^[a-zA-Z0-9_-]+$`: nonempty and all
characters in the allowed set. -/
def isSafeName (s : List Char) : Bool :=
  !s.isEmpty && s.all isSafeChar

/-! ### Signature verification (internal/github/runner.go VerifyWebhookSignature) -/

/-- One security log line with the caller identifier it was tagged with. -/
structure SecurityLog where
  message : List Char
  clientIP : List Char
deriving DecidableEq

/-- The fixed algorithm tag `sha256=` required at the front of the
signature header. -/
def sigSchemeTag : List Char := "sha256=".toList

/-- `strings.HasPrefix signature "sha256="`. -/
def hasSigSchemeTag (s : List Char) : Bool := s.take 7 == sigSchemeTag

/-- crypto/hmac.Equal: constant-time byte comparison; its boolean result
coincides with equality of the byte lists (the timing model is separate,
see `constantTimeCompareSteps`). -/
def hmacEqual (a b : List Nat) : Bool := a == b

/-- runner.go VerifyWebhookSignature: checks the `sha256=` tag, recomputes
the HMAC-SHA256 of the raw payload under the shared secret, hex-encodes it
and compares the bytes of the remaining signature characters against the
bytes of that lowercase hex string.  Returns the verdict together with the
security log lines emitted (each failure is logged with the caller
identifier; success emits nothing). -/
def VerifyWebhookSignature (payload : List Nat) (signature : List Char)
    (secret : List Nat) (clientIP : List Char) : Bool × List SecurityLog :=
  if hasSigSchemeTag signature then
    let expected := hexEncode (hmacSha256 secret payload)
    if hmacEqual ((signature.drop 7).map Char.toNat) (expected.map Char.toNat) then
      (true, [])
    else
      (false, [⟨"SECURITY: signature mismatch".toList, clientIP⟩])
  else
    (false, [⟨"SECURITY: invalid signature format".toList, clientIP⟩])

/-! ### Data model (internal/webhook/handler.go) -/

/-- `workflow_job` member of the webhook payload. -/
structure WorkflowJob where
  id : Int
  name : List Char
  labels : List (List Char)
deriving DecidableEq

/-- `repository` member of the webhook payload. -/
structure RepoInfo where
  fullName : List Char
  name : List Char
  ownerLogin : List Char
deriving DecidableEq

/-- Decoded workflow_job webhook payload. -/
structure WorkflowJobEvent where
  action : List Char
  workflowJob : WorkflowJob
  org : Option (List Char)
  repo : RepoInfo
deriving DecidableEq

/-- Handler configuration fields referenced by the admission pipeline and
the destroy callback (handler.go `Handler`). -/
structure Handler where
  webhookSecret : List Nat
  requiredLabel : List Char
  callbackSecret : List Char
  maxConcurrent : Nat
  maxPerRepoPerMin : Nat
deriving DecidableEq

/-- Rate limiter bucket map: repository full name to recorded admission
instants (handler.go `repoRateLimiter.buckets`). -/
abbrev Buckets := List (List Char × List Int)

/-- Map lookup with the Go zero value `[]` for missing keys. -/
def bucketsGet : Buckets → List Char → List Int
  | [], _ => []
  | (k', v) :: rest, k => if k' = k then v else bucketsGet rest k

/-- Map update (insert or overwrite). -/
def bucketsSet : Buckets → List Char → List Int → Buckets
  | [], k, v => [(k, v)]
  | (k', v') :: rest, k, v =>
    if k' = k then (k, v) :: rest else (k', v') :: bucketsSet rest k v

/-- The mutable handler state shared across requests: the rate limiter
bucket map and the number of occupied worker pool slots (the buffered
channel's occupancy). -/
structure HandlerState where
  buckets : Buckets
  poolUsed : Nat
deriving DecidableEq

/-- handler.go `repoRateLimiter.allow`: prune entries at or before
`now - window` (`t.After(cutoff)` keeps strictly later ones), reject if
the pruned count already reaches the limit (storing the pruned list),
otherwise record `now` and admit. -/
def rlAllow (limit : Nat) (window : Int) (bs : Buckets) (repo : List Char)
    (now : Int) : Bool × Buckets :=
  let valid := (bucketsGet bs repo).filter (fun t => decide (now - window < t))
  if limit ≤ valid.length then
    (false, bucketsSet bs repo valid)
  else
    (true, bucketsSet bs repo (valid ++ [now]))

/-- The fixed rate limiter window (`window: time.Minute`), in seconds. -/
def windowSeconds : Int := 60

/-- handler.go `maxBodySize = 1 * 1024 * 1024`. -/
def maxBodySize : Nat := 1048576

/-- An inbound webhook HTTP request: method, raw body bytes and the
consumed headers. -/
structure Request where
  method : List Char
  body : List Nat
  xHubSignature256 : List Char
  xGitHubEvent : List Char
  xForwardedFor : List Char
  remoteAddr : List Char
deriving DecidableEq

/-- Client identifier: the X-Forwarded-For header, falling back to the
connection-level remote address when the header is empty. -/
def requestClientIP (req : Request) : List Char :=
  if req.xForwardedFor.isEmpty then req.remoteAddr else req.xForwardedFor

/-- The outcome of one ServeHTTP call: HTTP status, the provisioning task
launched (if any), and the updated shared state. -/
structure ServeResult where
  status : Nat
  launched : Option WorkflowJobEvent
  state : HandlerState
deriving DecidableEq

/-- Literal `POST`. -/
def postMethod : List Char := "POST".toList

/-- Literal `workflow_job`. -/
def workflowJobEventType : List Char := "workflow_job".toList

/-- Literal `queued`. -/
def queuedAction : List Char := "queued".toList

/-- handler.go `hasRequiredLabel`: some event label equals the configured
required label up to case folding. -/
def hasRequiredLabel (labels : List (List Char)) (required : List Char) : Bool :=
  labels.any (fun l => equalFold l required)

/-- handler.go `ServeHTTP` (the revision with rate limiting and the worker
pool): method check, bounded body read, signature verification against the
raw body, event-type filter, JSON decoding (passed in as `parseEvent`, the
encoding/json collaborator), action filter, label filter, per-repository
rate limiting, then non-blocking worker pool acquisition.  A buffered
channel send succeeds exactly when occupancy is below capacity; the
provisioning goroutine is recorded in `launched`. -/
def serveHTTP (parseEvent : List Nat → Option WorkflowJobEvent) (h : Handler)
    (st : HandlerState) (req : Request) (now : Int) : ServeResult :=
  if req.method ≠ postMethod then ⟨405, none, st⟩
  else if maxBodySize < req.body.length then ⟨400, none, st⟩
  else if (VerifyWebhookSignature req.body req.xHubSignature256 h.webhookSecret
      (requestClientIP req)).fst = false then ⟨401, none, st⟩
  else if req.xGitHubEvent ≠ workflowJobEventType then ⟨200, none, st⟩
  else
    match parseEvent req.body with
    | none => ⟨400, none, st⟩
    | some event =>
      if event.action ≠ queuedAction then ⟨200, none, st⟩
      else if hasRequiredLabel event.workflowJob.labels h.requiredLabel = false then
        ⟨200, none, st⟩
      else if (rlAllow h.maxPerRepoPerMin windowSeconds st.buckets event.repo.fullName now).fst
          = false then
        ⟨429, none,
          ⟨(rlAllow h.maxPerRepoPerMin windowSeconds st.buckets event.repo.fullName now).snd,
           st.poolUsed⟩⟩
      else if st.poolUsed < h.maxConcurrent then
        ⟨202, some event,
          ⟨(rlAllow h.maxPerRepoPerMin windowSeconds st.buckets event.repo.fullName now).snd,
           st.poolUsed + 1⟩⟩
      else
        ⟨503, none,
          ⟨(rlAllow h.maxPerRepoPerMin windowSeconds st.buckets event.repo.fullName now).snd,
           st.poolUsed⟩⟩

/-! ### System trace model for the worker pool (handler.go worker pool plus
goroutine lifecycle) -/

/-- Whole-system state: the handler's shared state plus the provisioning
tasks currently running. -/
structure SysState where
  hs : HandlerState
  running : List WorkflowJobEvent

/-- One observable transition of the system: either an HTTP request is
processed by `serveHTTP` (appending the launched task, if any, to the
running set), or a running provisioning task completes with some
`outcome` (success or failure of provisioning) and its deferred
`<-h.workerPool` receive releases the capacity token. -/
inductive SysStep (parseEvent : List Nat → Option WorkflowJobEvent) (h : Handler) :
    SysState → SysState → Prop where
  | request (s : SysState) (req : Request) (now : Int) :
      SysStep parseEvent h s
        ⟨(serveHTTP parseEvent h s.hs req now).state,
         s.running ++ (serveHTTP parseEvent h s.hs req now).launched.toList⟩
  | complete (s : SysState) (outcome : Bool) (ev : WorkflowJobEvent)
      (pre post : List WorkflowJobEvent) :
      s.running = pre ++ ev :: post →
      SysStep parseEvent h s ⟨⟨s.hs.buckets, s.hs.poolUsed - 1⟩, pre ++ post⟩

/-- The initial system state: empty bucket map, empty pool, no tasks. -/
def sysInit : SysState := ⟨⟨[], 0⟩, []⟩

/-- States reachable from the initial state. -/
def SysReachable (parseEvent : List Nat → Option WorkflowJobEvent) (h : Handler)
    (s : SysState) : Prop :=
  Relation.ReflTransGen (SysStep parseEvent h) sysInit s

/-! ### Worker names (handler.go provisionRunner name construction) -/

/-- Decimal digits of `n`, least significant first, with explicit fuel
(`fuel = n` always suffices). -/
def natDigitsRev (fuel : Nat) (n : Nat) : List Nat :=
  match fuel with
  | 0 => []
  | Nat.succ f => if n = 0 then [] else n % 10 :: natDigitsRev f (n / 10)

/-- The character of one decimal digit. -/
def digitChar (d : Nat) : Char := Char.ofNat (48 + d)

/-- Decimal rendering of a natural number (`fmt.Sprintf "%d"`). -/
def natRepr (n : Nat) : List Char :=
  if n = 0 then ['0'] else (natDigitsRev n n).reverse.map digitChar

/-- Decimal rendering of an integer (`fmt.Sprintf "%d"`). -/
def intRepr (i : Int) : List Char :=
  if i < 0 then '-' :: natRepr i.natAbs else natRepr i.toNat

/-- Literal `eph-`. -/
def ephTag : List Char := "eph-".toList

/-- The untruncated worker name
`fmt.Sprintf("eph-%s-%d-%d", repo, jobID, unixTime)`. -/
def runnerNameFull (repo : List Char) (jobID : Int) (unixTime : Nat) : List Char :=
  ephTag ++ repo ++ ['-'] ++ intRepr jobID ++ ['-'] ++ natRepr unixTime

/-- handler.go provisionRunner worker name: the formatted name, truncated
to 63 characters when longer. -/
def runnerName (repo : List Char) (jobID : Int) (unixTime : Nat) : List Char :=
  if 63 < (runnerNameFull repo jobID unixTime).length then
    (runnerNameFull repo jobID unixTime).take 63
  else runnerNameFull repo jobID unixTime

/-- Worker name derived from an admitted event at provisioning time. -/
def eventRunnerName (ev : WorkflowJobEvent) (unixTime : Nat) : List Char :=
  runnerName ev.repo.name ev.workflowJob.id unixTime

/-! ### Label sanitization (handler.go provisionRunner label loop) -/

/-- handler.go provisionRunner: trim each label, keep it only when the
trimmed form matches `safeNameRegex`. -/
def sanitizeLabels : List (List Char) → List (List Char)
  | [] => []
  | l :: rest =>
    if isSafeName (trimSpace l) then trimSpace l :: sanitizeLabels rest
    else sanitizeLabels rest

/-! ### Destroy callback (handler.go HandleDestroy, final revision) -/

/-- An inbound destroy callback request. -/
structure DestroyRequest where
  method : List Char
  xCallbackSecret : List Char
  body : List Nat
deriving DecidableEq

/-- Outcome of a HandleDestroy call: HTTP status and the droplet delete
command issued to the provider, if any. -/
structure DestroyResult where
  status : Nat
  deleteCall : Option Int
deriving DecidableEq

/-- handler.go HandleDestroy: POST only; the X-Callback-Secret header must
be nonempty and equal to the configured callback secret (the final
revision compares with plain `!=`); body capped at 1024 bytes and decoded
(by the encoding/json collaborator `parseDroplet`) to a `droplet_id` that
must be non-zero; then the provider delete command is issued, answering
500 on provider failure (`deleteOk` is the provider outcome). -/
def handleDestroy (parseDroplet : List Nat → Option Int) (deleteOk : Int → Bool)
    (h : Handler) (req : DestroyRequest) : DestroyResult :=
  if req.method ≠ postMethod then ⟨405, none⟩
  else if req.xCallbackSecret = [] ∨ req.xCallbackSecret ≠ h.callbackSecret then ⟨401, none⟩
  else if 1024 < req.body.length then ⟨400, none⟩
  else
    match parseDroplet req.body with
    | none => ⟨400, none⟩
    | some dropletID =>
      if dropletID = 0 then ⟨400, none⟩
      else if deleteOk dropletID then ⟨200, some dropletID⟩
      else ⟨500, some dropletID⟩

/-! ### Timing cost models for the two secret comparisons -/

/-- Byte-comparison loop of a language-level string equality test with the
usual early exit at the first differing position; the second component
counts the positions examined. -/
def eqLoopSteps : List Char → List Char → Bool × Nat
  | [], [] => (true, 0)
  | x :: xs, y :: ys =>
    if x = y then
      ((eqLoopSteps xs ys).fst, (eqLoopSteps xs ys).snd + 1)
    else (false, 1)
  | _, _ => (false, 0)

/-- Cost model of Go string equality `a == b`: lengths are compared first
and the byte scan exits at the first difference. -/
def goStrEqSteps (a b : List Char) : Bool × Nat :=
  if a.length = b.length then eqLoopSteps a b else (false, 0)

/-- Cost model of crypto/subtle.ConstantTimeCompare (the comparison used
by HandleDestroy in the intermediate revision, handler.go line 522): for
equal-length inputs every position is examined regardless of content. -/
def constantTimeCompareSteps (a b : List Char) : Bool × Nat :=
  if a.length = b.length then (a == b, a.length) else (false, 0)

/-- The callback secret gate of the final HandleDestroy revision
(handler.go line 886): `secret == "" || secret != h.callbackSecret`
rejects; the first component is the authorization verdict and the second
the number of byte comparisons the string inequality performed. -/
def destroySecretCheckSteps (presented stored : List Char) : Bool × Nat :=
  if presented.isEmpty then (false, 0)
  else goStrEqSteps presented stored

/-! ### Stale droplet reaper (internal/digitalocean CleanupOldDroplets) -/

/-- The Unix-seconds value of Go's zero `time.Time`
(January 1, year 1, 00:00:00 UTC), which `time.Parse` yields together
with its error when the input does not parse. -/
def goZeroTimeUnix : Int := -62135596800

/-- A provider droplet as listed by the managed-tag query. -/
structure Droplet where
  id : Int
  name : List Char
  created : List Char
deriving DecidableEq

/-- Creation instant of a droplet: the parsed RFC3339 `Created` field, or
the zero time when parsing fails (`created, _ := time.Parse(...)` discards
the error and leaves the zero value). -/
def dropletCreatedUnix (parseTime : List Char → Option Int) (d : Droplet) : Int :=
  match parseTime d.created with
  | some t => t
  | none => goZeroTimeUnix

/-- The per-droplet loop of CleanupOldDroplets: attempt to delete every
droplet created strictly before the cutoff; count successes and record
every delete command issued; a failed delete logs and continues. -/
def cleanupLoop (parseTime : List Char → Option Int) (deleteOk : Int → Bool)
    (cutoff : Int) : List Droplet → Nat × List Int
  | [] => (0, [])
  | d :: rest =>
    if dropletCreatedUnix parseTime d < cutoff then
      if deleteOk d.id then
        ((cleanupLoop parseTime deleteOk cutoff rest).fst + 1,
         d.id :: (cleanupLoop parseTime deleteOk cutoff rest).snd)
      else
        ((cleanupLoop parseTime deleteOk cutoff rest).fst,
         d.id :: (cleanupLoop parseTime deleteOk cutoff rest).snd)
    else cleanupLoop parseTime deleteOk cutoff rest

/-- digitalocean CleanupOldDroplets over an already-listed droplet set:
cutoff is `time.Now().Add(-maxAge)`; returns the number of droplets
deleted and the delete commands issued, in order. -/
def cleanupOldDroplets (parseTime : List Char → Option Int) (deleteOk : Int → Bool)
    (droplets : List Droplet) (now maxAge : Int) : Nat × List Int :=
  cleanupLoop parseTime deleteOk (now - maxAge) droplets

/-- Value of a little-endian decimal digit list (left inverse used to show
decimal rendering is injective). -/
def ofDigitsRev : List Nat → Nat
  | [] => 0
  | d :: ds => d + 10 * ofDigitsRev ds

/-- Numeric value of one decimal digit character. -/
def decDigitVal (c : Char) : Nat := c.toNat - 48

/-- Numeric value of a big-endian decimal character list. -/
def decodeDec (s : List Char) : Nat := ofDigitsRev ((s.map decDigitVal).reverse)

/-- Run the rate limiter over a sequence of admission instants for one
repository, returning the verdicts in order and the final bucket map. -/
def rlRun (limit : Nat) (window : Int) (repo : List Char) :
    Buckets → List Int → List Bool × Buckets
  | bs, [] => ([], bs)
  | bs, t :: ts =>
    ((rlAllow limit window bs repo t).fst ::
       (rlRun limit window repo (rlAllow limit window bs repo t).snd ts).fst,
     (rlRun limit window repo (rlAllow limit window bs repo t).snd ts).snd)

/-! ### Concrete instances used to evaluate the model -/

/-- A shared webhook secret: the byte of `s`. -/
def cSecret : List Nat := [115]

/-- A payload: the two bytes of a small JSON object. -/
def cBody : List Nat := [123, 125]

/-- A signature header that verifies `cBody` under `cSecret`
(the lowercase hex HMAC-SHA256). -/
def cSigValid : List Char :=
  "sha256=143ca8d517ba1b181025d732b1cf275d90104fca57bb02a565542978aa18c4b6".toList

/-- Literal `self-hosted`, the default required label. -/
def labelSelfHosted : List Char := "self-hosted".toList

/-- A queued workflow_job event carrying the required label. -/
def cEvent : WorkflowJobEvent :=
  ⟨queuedAction, ⟨1, [], [labelSelfHosted]⟩, none, ⟨"o/r".toList, ['r'], ['o']⟩⟩

/-- A JSON decoder stub that yields `cEvent` (the decoder is an external
collaborator; any decoded value exercises the pipeline equally). -/
def cParse : List Nat → Option WorkflowJobEvent := fun _ => some cEvent

/-- A handler with capacity 1 and per-repository limit 1. -/
def cHandler : Handler := ⟨cSecret, labelSelfHosted, "cbsecret".toList, 1, 1⟩

/-- A well-formed, correctly signed workflow_job request. -/
def cRequest : Request :=
  ⟨postMethod, cBody, cSigValid, workflowJobEventType, ['i'], ['a']⟩

/-- The same request with an empty signature header. -/
def cBadSigRequest : Request :=
  ⟨postMethod, cBody, [], workflowJobEventType, ['i'], ['a']⟩

/-- Bytes of `secret`. -/
def c4Secret : List Nat := [115, 101, 99, 114, 101, 116]

/-- Bytes of `body`. -/
def c4Payload : List Nat := [98, 111, 100, 121]

/-- The HMAC-SHA256 of `c4Payload` under `c4Secret`, hex-encoded in
UPPERCASE: it decodes to the correct digest but differs textually from
the lowercase encoding. -/
def c4SigUpper : List Char :=
  "sha256=DC46983557FEA127B43AF721467EB9B3FDE2338FE3E14F51952AA8478C13D355".toList

/-- A 59-character repository name of allowed characters. -/
def repo59 : List Char := List.replicate 59 'a'

/-- Literal ` chef ` (padded with spaces). -/
def labelChefPadded : List Char := " chef ".toList

/-- Literal `bad label!` (contains a space and a disallowed character). -/
def labelBad : List Char := "bad label!".toList

/-- Droplets aged 30, 90 and 10 minutes (creation-instant tags resolved by
`exParseTime` against `now = 0`). -/
def exDroplets : List Droplet :=
  [⟨1, ['a'], "t30".toList⟩, ⟨2, ['b'], "t90".toList⟩, ⟨3, ['c'], "t10".toList⟩]

/-- Droplets aged 90 and 120 minutes. -/
def exDropletsTwoOld : List Droplet :=
  [⟨2, ['b'], "t90".toList⟩, ⟨4, ['d'], "t120".toList⟩]

/-- RFC3339 parser stub resolving the creation tags of the example
droplets relative to `now = 0`. -/
def exParseTime : List Char → Option Int := fun s =>
  if s = "t30".toList then some (-1800)
  else if s = "t90".toList then some (-5400)
  else if s = "t10".toList then some (-600)
  else if s = "t120".toList then some (-7200)
  else none

/-- A droplet whose creation timestamp does not parse. -/
def exBadDroplet : Droplet := ⟨7, ['x'], "bogus".toList⟩

/-! ### Helper lemmas -/

/-- The SHA-256 test vector for the empty message, pinning the embedding
against FIPS 180-4. -/
theorem sha256_empty_vector :
    sha256 [] = [227, 176, 196, 66, 152, 252, 28, 20,
                 154, 251, 244, 200, 153, 111, 185, 36,
                 39, 174, 65, 228, 100, 155, 147, 76,
                 164, 149, 153, 27, 120, 82, 184, 85] := by
  decide

/-- Character codes determine characters. -/
theorem char_toNat_injective : Function.Injective Char.toNat := by
  intro a b hab
  cases a
  cases b
  simp only [Char.toNat] at hab
  congr 1
  exact UInt32.ext hab

/-- The byte-level comparison of two character lists decides their
equality. -/
theorem hmacEqual_map_toNat (a b : List Char) :
    hmacEqual (a.map Char.toNat) (b.map Char.toNat) = true ↔ a = b := by
  unfold hmacEqual
  rw [beq_iff_eq]
  exact ⟨fun hab => Function.Injective.list_map char_toNat_injective hab,
    fun hab => by rw [hab]⟩

/-- Updating then reading a bucket key yields the written value. -/
theorem bucketsGet_set (bs : Buckets) (k : List Char) (v : List Int) :
    bucketsGet (bucketsSet bs k v) k = v := by
  induction bs with
  | nil => simp [bucketsSet, bucketsGet]
  | cons p rest ih =>
    by_cases hk : p.1 = k
    · simp [bucketsSet, hk, bucketsGet]
    · simp [bucketsSet, hk, bucketsGet, ih]

/-- The sanitization loop is the trim-then-filter of the label list. -/
theorem sanitizeLabels_eq_filter (labels : List (List Char)) :
    sanitizeLabels labels = (labels.map trimSpace).filter isSafeName := by
  induction labels with
  | nil => rfl
  | cons l rest ih =>
    by_cases hl : isSafeName (trimSpace l)
    · simp [sanitizeLabels, hl, List.filter_cons, ih]
    · simp only [sanitizeLabels, hl, if_false, List.map_cons, List.filter_cons]
      rw [if_neg (by simp [hl])]
      exact ih

/-- The delete commands issued by the reaper loop are exactly those for
droplets created strictly before the cutoff, whatever the provider's
delete outcomes. -/
theorem cleanupLoop_attempts (parseTime : List Char → Option Int)
    (deleteOk : Int → Bool) (cutoff : Int) (droplets : List Droplet) :
    (cleanupLoop parseTime deleteOk cutoff droplets).snd
      = (droplets.filter
          (fun d => decide (dropletCreatedUnix parseTime d < cutoff))).map Droplet.id := by
  induction droplets with
  | nil => rfl
  | cons d rest ih =>
    by_cases hd : dropletCreatedUnix parseTime d < cutoff
    · by_cases hok : deleteOk d.id
      · simp [cleanupLoop, hd, hok, List.filter_cons, ih]
      · simp [cleanupLoop, hd, hok, List.filter_cons, ih]
    · simp [cleanupLoop, hd, List.filter_cons, ih]

/-- Every digit produced by `natDigitsRev` is below 10. -/
theorem natDigitsRev_lt (fuel : Nat) :
    ∀ (n : Nat), ∀ d ∈ natDigitsRev fuel n, d < 10 := by
  induction fuel with
  | zero => intro n d hd; simp [natDigitsRev] at hd
  | succ f ih =>
    intro n d hd
    by_cases hn : n = 0
    · simp [natDigitsRev, hn] at hd
    · simp only [natDigitsRev, hn, if_false, List.mem_cons] at hd
      rcases hd with hd | hd
      · omega
      · exact ih (n / 10) d hd

/-- `ofDigitsRev` recovers the number from its digit list when the fuel is
sufficient. -/
theorem ofDigitsRev_natDigitsRev (fuel : Nat) :
    ∀ (n : Nat), n ≤ fuel → ofDigitsRev (natDigitsRev fuel n) = n := by
  induction fuel with
  | zero => intro n hn; interval_cases n; rfl
  | succ f ih =>
    intro n hn
    by_cases hz : n = 0
    · simp [natDigitsRev, hz, ofDigitsRev]
    · have hdiv : n / 10 ≤ f := by
        have := Nat.div_lt_self (Nat.pos_of_ne_zero hz) (by norm_num : 1 < 10)
        omega
      simp only [natDigitsRev, hz, if_false, ofDigitsRev, ih (n / 10) hdiv]
      omega

/-- Digit characters decode back to their digit values. -/
theorem decDigitVal_digitChar (d : Nat) (hd : d < 10) :
    decDigitVal (digitChar d) = d := by
  interval_cases d <;> decide

/-- `decodeDec` is a left inverse of the decimal rendering. -/
theorem decodeDec_natRepr (n : Nat) : decodeDec (natRepr n) = n := by
  by_cases hz : n = 0
  · subst hz; decide
  · unfold natRepr decodeDec
    rw [if_neg hz]
    simp only [List.map_reverse, List.reverse_reverse, List.map_map]
    have hmap : (natDigitsRev n n).map (decDigitVal ∘ digitChar)
        = (natDigitsRev n n).map id := by
      apply List.map_eq_map_iff.mpr
      intro d hd
      exact decDigitVal_digitChar d (natDigitsRev_lt n n d hd)
    rw [hmap, List.map_id]
    exact ofDigitsRev_natDigitsRev n n le_rfl

/-- Decimal rendering of naturals is injective. -/
theorem natRepr_injective : Function.Injective natRepr :=
  Function.LeftInverse.injective decodeDec_natRepr

/-! ### Claim theorems -/

/-- C7: label sanitization trims whitespace from each event label and
discards every label whose trimmed form falls outside the allowed
character set `[a-zA-Z0-9_-]+`; the inputs `["self-hosted", " chef ",
"bad label!"]` sanitize to `["self-hosted", "chef"]`, and the event is
admitted because `self-hosted` matches the required label
case-insensitively. -/
theorem c7_label_sanitization :
    (∀ labels : List (List Char),
        sanitizeLabels labels = (labels.map trimSpace).filter isSafeName)
  ∧ sanitizeLabels [labelSelfHosted, labelChefPadded, labelBad]
      = [labelSelfHosted, "chef".toList]
  ∧ hasRequiredLabel [labelSelfHosted, labelChefPadded, labelBad] labelSelfHosted = true
  ∧ hasRequiredLabel ["Self-Hosted".toList] labelSelfHosted = true := by
  refine ⟨sanitizeLabels_eq_filter, ?_, ?_, ?_⟩
  · decide
  · decide
  · decide

/-- C8: the reaper issues delete commands exactly for the droplets whose
creation instant is strictly before `now - maxAge` (age strictly above the
maximum), independently of individual delete outcomes, so one failure
never suppresses the remaining attempts; with ages `[30m, 90m, 10m]` and
max-age 60m exactly the 90-minute droplet is deleted, and a failing
provider still receives the same delete command; with two overdue
droplets, a failure on the first still lets the second be deleted. -/
theorem c8_reaper_exact_age_threshold :
    (∀ (parseTime : List Char → Option Int) (deleteOk : Int → Bool)
        (droplets : List Droplet) (now maxAge : Int),
        (cleanupOldDroplets parseTime deleteOk droplets now maxAge).snd
          = (droplets.filter
              (fun d => decide (dropletCreatedUnix parseTime d < now - maxAge))).map
              Droplet.id)
  ∧ cleanupOldDroplets exParseTime (fun _ => true) exDroplets 0 3600 = (1, [2])
  ∧ cleanupOldDroplets exParseTime (fun _ => false) exDroplets 0 3600 = (0, [2])
  ∧ cleanupOldDroplets exParseTime (fun i => i == 4) exDropletsTwoOld 0 3600
      = (1, [2, 4]) := by
  refine ⟨?_, ?_, ?_, ?_⟩
  · intro parseTime deleteOk droplets now maxAge
    exact cleanupLoop_attempts parseTime deleteOk (now - maxAge) droplets
  · decide
  · decide
  · decide

/-- C10: when a listed droplet's creation timestamp fails to parse, the
reaper silently falls back to the zero time, which lies before any
realistic cutoff, so a delete is attempted for that droplet regardless of
its actual age. -/
theorem c10_unparseable_timestamp_reaped (parseTime : List Char → Option Int)
    (deleteOk : Int → Bool) (droplets : List Droplet) (now maxAge : Int)
    (d : Droplet) (hmem : d ∈ droplets) (hparse : parseTime d.created = none)
    (hcut : goZeroTimeUnix < now - maxAge) :
    dropletCreatedUnix parseTime d = goZeroTimeUnix
  ∧ d.id ∈ (cleanupOldDroplets parseTime deleteOk droplets now maxAge).snd := by
  have heff : dropletCreatedUnix parseTime d = goZeroTimeUnix := by
    unfold dropletCreatedUnix
    rw [hparse]
  refine ⟨heff, ?_⟩
  unfold cleanupOldDroplets
  rw [cleanupLoop_attempts]
  refine List.mem_map.mpr ⟨d, ?_, rfl⟩
  refine List.mem_filter.mpr ⟨hmem, ?_⟩
  rw [heff]
  exact decide_eq_true hcut

/-- Witness for C10: a single droplet with an unparseable timestamp is
deleted under a one-hour cutoff. -/
theorem c10_witness :
    exBadDroplet ∈ [exBadDroplet]
  ∧ (fun _ => (none : Option Int)) exBadDroplet.created = none
  ∧ goZeroTimeUnix < (0 : Int) - 3600
  ∧ (dropletCreatedUnix (fun _ => none) exBadDroplet = goZeroTimeUnix
     ∧ exBadDroplet.id ∈
        (cleanupOldDroplets (fun _ => none) (fun _ => true) [exBadDroplet] 0 3600).snd) :=
  ⟨by decide, rfl, by decide,
   c10_unparseable_timestamp_reaped (fun _ => none) (fun _ => true) [exBadDroplet]
     0 3600 exBadDroplet (by decide) rfl (by decide)⟩

/-- C9: with a valid callback secret and a small body, HandleDestroy
answers 400 exactly for an unparseable body or a zero droplet_id; a
negative droplet_id is not rejected, and the provider delete command is
issued with the negative identifier. -/
theorem c9_negative_droplet_id_accepted (parseDroplet : List Nat → Option Int)
    (deleteOk : Int → Bool) (h : Handler) (req : DestroyRequest)
    (hm : req.method = postMethod) (hs : req.xCallbackSecret = h.callbackSecret)
    (hne : req.xCallbackSecret ≠ []) (hb : req.body.length ≤ 1024) :
    ((handleDestroy parseDroplet deleteOk h req).status = 400
        ↔ (parseDroplet req.body = none ∨ parseDroplet req.body = some 0))
  ∧ (∀ d : Int, parseDroplet req.body = some d → d < 0 →
      (handleDestroy parseDroplet deleteOk h req).deleteCall = some d
      ∧ (handleDestroy parseDroplet deleteOk h req).status ≠ 400) := by
  have hsec : ¬(req.xCallbackSecret = [] ∨ req.xCallbackSecret ≠ h.callbackSecret) := by
    push_neg
    exact ⟨hne, hs⟩
  unfold handleDestroy
  rw [if_neg (by simp [hm]), if_neg hsec, if_neg (by omega)]
  constructor
  · cases hp : parseDroplet req.body with
    | none => simp
    | some d =>
      dsimp only
      by_cases hd : d = 0
      · subst hd; simp
      · rw [if_neg hd]
        by_cases hok : deleteOk d
        · rw [if_pos hok]
          simp [hd]
        · rw [if_neg hok]
          simp [hd]
  · intro d hp hneg
    rw [hp]
    dsimp only
    rw [if_neg (by omega : ¬d = 0)]
    by_cases hok : deleteOk d
    · rw [if_pos hok]
      exact ⟨rfl, by simp⟩
    · rw [if_neg hok]
      exact ⟨rfl, by simp⟩

/-- Witness for C9: a parsed droplet_id of -5 passes validation and the
delete command carries -5. -/
theorem c9_witness :
    (handleDestroy (fun _ => some (-5)) (fun _ => true) cHandler
        ⟨postMethod, "cbsecret".toList, [102]⟩).deleteCall = some (-5)
  ∧ (handleDestroy (fun _ => some (-5)) (fun _ => true) cHandler
        ⟨postMethod, "cbsecret".toList, [102]⟩).status ≠ 400 :=
  (c9_negative_droplet_id_accepted (fun _ => some (-5)) (fun _ => true) cHandler
      ⟨postMethod, "cbsecret".toList, [102]⟩ rfl rfl (by decide) (by decide)).2
    (-5) rfl (by decide)

/-- C5: the callback-secret gate of the final HandleDestroy revision uses
the language's early-exit string inequality, so the number of byte
comparisons depends on the position of the first difference — two
equal-length wrong secrets cost 1 and 6 comparisons respectively — whereas
the constant-time comparison of the intermediate revision examines every
position for both; the gate rejects such requests with 401. -/
theorem c5_callback_secret_timing :
    destroySecretCheckSteps "xbcdef".toList "abcdef".toList = (false, 1)
  ∧ destroySecretCheckSteps "abcdeg".toList "abcdef".toList = (false, 6)
  ∧ ("xbcdef".toList).length = ("abcdeg".toList).length
  ∧ (destroySecretCheckSteps "xbcdef".toList "abcdef".toList).snd
      ≠ (destroySecretCheckSteps "abcdeg".toList "abcdef".toList).snd
  ∧ (constantTimeCompareSteps "xbcdef".toList "abcdef".toList).snd
      = (constantTimeCompareSteps "abcdeg".toList "abcdef".toList).snd
  ∧ handleDestroy (fun _ => some 1) (fun _ => true)
      ⟨cSecret, labelSelfHosted, "abcdef".toList, 1, 1⟩
      ⟨postMethod, "xbcdef".toList, []⟩ = ⟨401, none⟩ := by
  refine ⟨?_, ?_, ?_, ?_, ?_, ?_⟩ <;> decide

/-- Counterexample to C6 as stated: with a 59-character repository name
the 63-character truncation cuts the name off before the timestamp, so two
events with the same job identifier at different Unix times get the same
worker name. -/
theorem c6_counterexample_truncation_collision :
    runnerName repo59 1 1700000000 = runnerName repo59 1 1700000001
  ∧ (1700000000 : Nat) ≠ 1700000001 := by
  constructor
  · decide
  · decide

/-- C6 (amended): every generated worker name is at most 63 characters;
the name is a function of repository name, job identifier and timestamp
alone; and — provided the untruncated names fit within 63 characters —
two events with the same job identifier at different timestamps receive
different names (without that proviso the truncation can erase the
timestamp, see the counterexample). -/
theorem c6_worker_name_bounded_and_unique (repo : List Char) (jobID : Int)
    (t1 t2 : Nat) :
    (runnerName repo jobID t1).length ≤ 63
  ∧ (∀ (ev ev' : WorkflowJobEvent) (t : Nat), ev.repo.name = ev'.repo.name →
      ev.workflowJob.id = ev'.workflowJob.id →
      eventRunnerName ev t = eventRunnerName ev' t)
  ∧ ((runnerNameFull repo jobID t1).length ≤ 63 →
     (runnerNameFull repo jobID t2).length ≤ 63 →
     t1 ≠ t2 → runnerName repo jobID t1 ≠ runnerName repo jobID t2) := by
  refine ⟨?_, ?_, ?_⟩
  · unfold runnerName
    by_cases hlen : 63 < (runnerNameFull repo jobID t1).length
    · rw [if_pos hlen]
      simp [List.length_take]
    · rw [if_neg hlen]
      omega
  · intro ev ev' t hrepo hid
    unfold eventRunnerName
    rw [hrepo, hid]
  · intro h1 h2 hne
    unfold runnerName
    rw [if_neg (by omega), if_neg (by omega)]
    unfold runnerNameFull
    intro heq
    apply hne
    apply natRepr_injective
    exact List.append_cancel_left heq

/-- Witness for C6 (amended): a short repository name keeps the
untruncated name within 63 characters and distinct timestamps give
distinct names. -/
theorem c6_witness :
    (runnerName ['r'] 1 10).length ≤ 63
  ∧ (runnerNameFull ['r'] 1 10).length ≤ 63
  ∧ (runnerNameFull ['r'] 1 11).length ≤ 63
  ∧ (10 : Nat) ≠ 11
  ∧ runnerName ['r'] 1 10 ≠ runnerName ['r'] 1 11 :=
  ⟨(c6_worker_name_bounded_and_unique ['r'] 1 10 11).1, by decide, by decide, by decide,
   (c6_worker_name_bounded_and_unique ['r'] 1 10 11).2.2 (by decide) (by decide)
     (by decide)⟩

/-- Counterexample to C4 as stated: an uppercase hex signature decodes to
exactly the HMAC-SHA256 of the body under the secret, yet the verifier
rejects it, because it compares the signature text against the lowercase
hex encoding rather than comparing decoded bytes. -/
theorem c4_counterexample_uppercase_hex :
    (VerifyWebhookSignature c4Payload c4SigUpper c4Secret ['i']).fst = false
  ∧ hasSigSchemeTag c4SigUpper = true
  ∧ hexDecode (c4SigUpper.drop 7) = some (hmacSha256 c4Secret c4Payload) := by
  refine ⟨?_, ?_, ?_⟩
  · decide
  · decide
  · decide

/-- C4 (amended): VerifyWebhookSignature is a total boolean function that
accepts exactly the signatures carrying the `sha256=` tag whose remainder
is the lowercase hex encoding of the HMAC-SHA256 of the raw body under the
shared secret (so an uppercase encoding of the correct digest is
rejected even though it decodes to the digest); it emits a security log
line tagged with the caller identifier exactly on failure. -/
theorem c4_signature_verification (payload : List Nat) (signature : List Char)
    (secret : List Nat) (clientIP : List Char) :
    ((VerifyWebhookSignature payload signature secret clientIP).fst = true
      ↔ (hasSigSchemeTag signature = true
         ∧ signature.drop 7 = hexEncode (hmacSha256 secret payload)))
  ∧ ((VerifyWebhookSignature payload signature secret clientIP).fst = true
      ↔ (VerifyWebhookSignature payload signature secret clientIP).snd = [])
  ∧ (VerifyWebhookSignature payload signature secret clientIP).snd.all
      (fun e => e.clientIP == clientIP) = true := by
  unfold VerifyWebhookSignature
  by_cases htag : hasSigSchemeTag signature = true
  · rw [if_pos htag]
    by_cases heq : signature.drop 7 = hexEncode (hmacSha256 secret payload)
    · rw [if_pos ((hmacEqual_map_toNat _ _).mpr heq)]
      simp [htag, heq]
    · rw [if_neg (fun hc => heq ((hmacEqual_map_toNat _ _).mp hc))]
      simp [htag, heq]
  · rw [if_neg htag]
    simp [htag]

/-- C1: the admission pipeline enforces, in order with short-circuiting:
POST method, signature authentication, event-type filter, payload parse,
action = `queued`, required-label match, per-repository rate limiting and
concurrency-token acquisition — a provisioning task is launched only when
every one of these passed; a non-POST request stops at 405; and a POST
request whose signature is missing or wrong is answered 401 with no task
launched and the shared state untouched. -/
theorem c1_admission_pipeline (parseEvent : List Nat → Option WorkflowJobEvent)
    (h : Handler) (st : HandlerState) (req : Request) (now : Int) :
    (req.method ≠ postMethod →
        (serveHTTP parseEvent h st req now).status = 405
        ∧ (serveHTTP parseEvent h st req now).launched = none)
  ∧ (req.method = postMethod → req.body.length ≤ maxBodySize →
      (VerifyWebhookSignature req.body req.xHubSignature256 h.webhookSecret
          (requestClientIP req)).fst = false →
      (serveHTTP parseEvent h st req now).status = 401
      ∧ (serveHTTP parseEvent h st req now).launched = none
      ∧ (serveHTTP parseEvent h st req now).state = st)
  ∧ (∀ ev, (serveHTTP parseEvent h st req now).launched = some ev →
      req.method = postMethod
      ∧ req.body.length ≤ maxBodySize
      ∧ (VerifyWebhookSignature req.body req.xHubSignature256 h.webhookSecret
          (requestClientIP req)).fst = true
      ∧ req.xGitHubEvent = workflowJobEventType
      ∧ parseEvent req.body = some ev
      ∧ ev.action = queuedAction
      ∧ hasRequiredLabel ev.workflowJob.labels h.requiredLabel = true
      ∧ (rlAllow h.maxPerRepoPerMin windowSeconds st.buckets ev.repo.fullName now).fst
          = true
      ∧ st.poolUsed < h.maxConcurrent) := by
  refine ⟨?_, ?_, ?_⟩
  · intro hm
    unfold serveHTTP
    rw [if_pos hm]
    exact ⟨rfl, rfl⟩
  · intro hm hsz hver
    unfold serveHTTP
    rw [if_neg (not_ne_iff.mpr hm), if_neg (Nat.not_lt.mpr hsz), if_pos hver]
    exact ⟨rfl, rfl, rfl⟩
  · intro ev hev
    unfold serveHTTP at hev
    cases hp : parseEvent req.body with
    | none =>
      rw [hp] at hev
      split_ifs at hev
    | some event =>
      rw [hp] at hev
      dsimp only at hev
      split_ifs at hev with h1 h2 h3 h4 h5 h6 h7 h8
      all_goals simp only [Option.some.injEq] at hev
      subst hev
      refine ⟨by simpa using h1, by omega, by simpa using h3, by simpa using h4,
        rfl, by simpa using h5, by simpa using h6, by simpa using h7, h8⟩

/-- Witness for C1: the well-formed request with an empty signature header
is answered 401 and launches nothing. -/
theorem c1_witness :
    cBadSigRequest.method = postMethod
  ∧ cBadSigRequest.body.length ≤ maxBodySize
  ∧ (VerifyWebhookSignature cBadSigRequest.body cBadSigRequest.xHubSignature256
      cHandler.webhookSecret (requestClientIP cBadSigRequest)).fst = false
  ∧ (serveHTTP cParse cHandler ⟨[], 0⟩ cBadSigRequest 0).status = 401
  ∧ (serveHTTP cParse cHandler ⟨[], 0⟩ cBadSigRequest 0).launched = none :=
  ⟨rfl, by decide, by decide,
   ((c1_admission_pipeline cParse cHandler ⟨[], 0⟩ cBadSigRequest 0).2.1 rfl
      (by decide) (by decide)).1,
   ((c1_admission_pipeline cParse cHandler ⟨[], 0⟩ cBadSigRequest 0).2.1 rfl
      (by decide) (by decide)).2.1⟩

/-- Admitting at instant `t` with `j < limit` same-instant entries on
record appends another entry. -/
theorem rlAllow_replicate_accepts (limit : Nat) (window : Int) (repo : List Char)
    (t : Int) (j : Nat) (hw : 0 < window) (hj : j < limit) :
    rlAllow limit window [(repo, List.replicate j t)] repo t
      = (true, [(repo, List.replicate (j + 1) t)]) := by
  unfold rlAllow
  have hget : bucketsGet [(repo, List.replicate j t)] repo = List.replicate j t := by
    simp [bucketsGet]
  rw [hget]
  have hfil : (List.replicate j t).filter (fun u => decide (t - window < u))
      = List.replicate j t := by
    refine List.filter_eq_self.mpr ?_
    intro a ha
    rw [List.eq_of_mem_replicate ha]
    exact decide_eq_true (by omega)
  rw [hfil, if_neg (by simp only [List.length_replicate]; omega), List.replicate_succ']
  simp [bucketsSet]

/-- Running the limiter `k` more times at the same instant, with `j`
entries already on record and `j + k ≤ limit`, admits every time. -/
theorem rlRun_replicate (limit : Nat) (window : Int) (repo : List Char) (t : Int)
    (hw : 0 < window) :
    ∀ (k j : Nat), j + k ≤ limit →
      rlRun limit window repo [(repo, List.replicate j t)] (List.replicate k t)
        = (List.replicate k true, [(repo, List.replicate (j + k) t)]) := by
  intro k
  induction k with
  | zero =>
    intro j hjk
    simp [rlRun]
  | succ k ih =>
    intro j hjk
    rw [List.replicate_succ]
    unfold rlRun
    rw [rlAllow_replicate_accepts limit window repo t j hw (by omega)]
    dsimp only
    rw [ih (j + 1) (by omega)]
    dsimp only
    rw [show j + 1 + k = j + (k + 1) from by omega,
      show List.replicate (k + 1) true = true :: List.replicate k true from rfl]

/-- C3: the per-repository sliding-window limiter prunes entries older
than the window on every check, rejects exactly when the pruned count
already reaches the limit (recording only the pruned list), and otherwise
appends the current instant; consequently, after `L` admissions inside one
window the next attempt within the window is rejected, admission succeeds
again once the window has elapsed, and whenever the limiter rejects an
otherwise admissible request ServeHTTP answers 429 and launches nothing. -/
theorem c3_rate_limiter :
    (∀ (limit : Nat) (window : Int) (bs : Buckets) (repo : List Char) (now : Int),
      ((rlAllow limit window bs repo now).fst = true
        ↔ ((bucketsGet bs repo).filter (fun u => decide (now - window < u))).length < limit)
      ∧ bucketsGet (rlAllow limit window bs repo now).snd repo
          = ((bucketsGet bs repo).filter (fun u => decide (now - window < u)))
            ++ (if ((bucketsGet bs repo).filter (fun u => decide (now - window < u))).length
                  < limit then [now] else []))
  ∧ (∀ (L : Nat) (repo : List Char) (window t tnext tlater : Int),
      0 < L → 0 < window → t ≤ tnext → tnext < t + window → t + window ≤ tlater →
      (rlRun L window repo [] (List.replicate L t)).fst = List.replicate L true
      ∧ (rlAllow L window (rlRun L window repo [] (List.replicate L t)).snd repo
          tnext).fst = false
      ∧ (rlAllow L window
          (rlAllow L window (rlRun L window repo [] (List.replicate L t)).snd repo
            tnext).snd repo tlater).fst = true)
  ∧ (∀ (parseEvent : List Nat → Option WorkflowJobEvent) (h : Handler)
      (st : HandlerState) (req : Request) (now : Int) (ev : WorkflowJobEvent),
      req.method = postMethod → req.body.length ≤ maxBodySize →
      (VerifyWebhookSignature req.body req.xHubSignature256 h.webhookSecret
          (requestClientIP req)).fst = true →
      req.xGitHubEvent = workflowJobEventType →
      parseEvent req.body = some ev →
      ev.action = queuedAction →
      hasRequiredLabel ev.workflowJob.labels h.requiredLabel = true →
      (rlAllow h.maxPerRepoPerMin windowSeconds st.buckets ev.repo.fullName now).fst
          = false →
      (serveHTTP parseEvent h st req now).status = 429
      ∧ (serveHTTP parseEvent h st req now).launched = none) := by
  refine ⟨?_, ?_, ?_⟩
  · intro limit window bs repo now
    unfold rlAllow
    by_cases hle :
        limit ≤ ((bucketsGet bs repo).filter (fun u => decide (now - window < u))).length
    · rw [if_pos hle]
      refine ⟨by simp; omega, ?_⟩
      rw [bucketsGet_set, if_neg (by omega)]
      simp
    · rw [if_neg hle]
      refine ⟨by simp; omega, ?_⟩
      rw [bucketsGet_set, if_pos (by omega)]
  · intro L repo window t tnext tlater hL hw h1 h2 h3
    obtain ⟨Lp, rfl⟩ : ∃ Lp, L = Lp + 1 := ⟨L - 1, by omega⟩
    have hstep1 : rlAllow (Lp + 1) window [] repo t = (true, [(repo, [t])]) := by
      unfold rlAllow
      simp [bucketsGet, bucketsSet]
    have hrun : rlRun (Lp + 1) window repo [] (List.replicate (Lp + 1) t)
        = (List.replicate (Lp + 1) true, [(repo, List.replicate (Lp + 1) t)]) := by
      show rlRun (Lp + 1) window repo [] (t :: List.replicate Lp t) = _
      unfold rlRun
      rw [hstep1]
      dsimp only
      rw [show ([t] : List Int) = List.replicate 1 t from rfl,
        rlRun_replicate (Lp + 1) window repo t hw Lp 1 (by omega)]
      dsimp only
      rw [show 1 + Lp = Lp + 1 from by omega,
        show List.replicate (Lp + 1) true = true :: List.replicate Lp true from rfl]
    have hfull : bucketsGet (rlRun (Lp + 1) window repo []
        (List.replicate (Lp + 1) t)).snd repo = List.replicate (Lp + 1) t := by
      rw [hrun]
      simp [bucketsGet]
    have hkeep : (List.replicate (Lp + 1) t).filter
        (fun u => decide (tnext - window < u)) = List.replicate (Lp + 1) t := by
      refine List.filter_eq_self.mpr ?_
      intro a ha
      rw [List.eq_of_mem_replicate ha]
      exact decide_eq_true (by omega)
    have hreject : rlAllow (Lp + 1) window (rlRun (Lp + 1) window repo []
        (List.replicate (Lp + 1) t)).snd repo tnext
        = (false, bucketsSet (rlRun (Lp + 1) window repo []
            (List.replicate (Lp + 1) t)).snd repo (List.replicate (Lp + 1) t)) := by
      unfold rlAllow
      rw [hfull, hkeep, if_pos (by simp)]
    refine ⟨by rw [hrun], by rw [hreject], ?_⟩
    rw [hreject]
    unfold rlAllow
    rw [hrun]
    dsimp only
    have hset : bucketsGet (bucketsSet [(repo, List.replicate (Lp + 1) t)] repo
        (List.replicate (Lp + 1) t)) repo = List.replicate (Lp + 1) t :=
      bucketsGet_set _ repo _
    rw [hset]
    have hdrop : (List.replicate (Lp + 1) t).filter
        (fun u => decide (tlater - window < u)) = [] := by
      refine List.filter_eq_nil_iff.mpr ?_
      intro a ha
      rw [List.eq_of_mem_replicate ha]
      simp
      omega
    rw [hdrop, if_neg (by simp)]
  · intro parseEvent h st req now ev hm hsz hver het hp hact hlab hrl
    unfold serveHTTP
    rw [if_neg (not_ne_iff.mpr hm), if_neg (Nat.not_lt.mpr hsz),
      if_neg (by simp [hver]), if_neg (not_ne_iff.mpr het), hp]
    dsimp only
    rw [if_neg (not_ne_iff.mpr hact), if_neg (by simp [hlab]), if_pos hrl]
    exact ⟨rfl, rfl⟩

/-- Witness for C3: with limit 1 and a 60-second window on one repository,
the first admission at instant 0 succeeds, a second attempt at instant 30
is rejected, an attempt at instant 60 succeeds again, and a signed,
admissible request that the limiter rejects is answered 429 with nothing
launched. -/
theorem c3_witness :
    ((rlRun 1 60 "o/r".toList [] (List.replicate 1 0)).fst = List.replicate 1 true
     ∧ (rlAllow 1 60 (rlRun 1 60 "o/r".toList [] (List.replicate 1 0)).snd
         "o/r".toList 30).fst = false
     ∧ (rlAllow 1 60 (rlAllow 1 60 (rlRun 1 60 "o/r".toList []
         (List.replicate 1 0)).snd "o/r".toList 30).snd "o/r".toList 60).fst = true)
  ∧ ((serveHTTP cParse cHandler ⟨[("o/r".toList, [0])], 0⟩ cRequest 0).status = 429
     ∧ (serveHTTP cParse cHandler ⟨[("o/r".toList, [0])], 0⟩ cRequest 0).launched
         = none) :=
  ⟨c3_rate_limiter.2.1 1 "o/r".toList 60 0 30 60 (by decide) (by decide) (by decide)
     (by decide) (by decide),
   c3_rate_limiter.2.2 cParse cHandler ⟨[("o/r".toList, [0])], 0⟩ cRequest 0 cEvent
     rfl (by decide) (by decide) rfl rfl rfl (by decide) (by decide)⟩

/-- Each ServeHTTP call either launches nothing and leaves the pool
occupancy unchanged, or launches one task after finding the pool below
capacity and occupies one more slot. -/
theorem serveHTTP_pool (parseEvent : List Nat → Option WorkflowJobEvent)
    (h : Handler) (st : HandlerState) (req : Request) (now : Int) :
    ((serveHTTP parseEvent h st req now).launched = none
      ∧ (serveHTTP parseEvent h st req now).state.poolUsed = st.poolUsed)
  ∨ (∃ ev, (serveHTTP parseEvent h st req now).launched = some ev
      ∧ st.poolUsed < h.maxConcurrent
      ∧ (serveHTTP parseEvent h st req now).state.poolUsed = st.poolUsed + 1) := by
  unfold serveHTTP
  cases hp : parseEvent req.body with
  | none =>
    dsimp only
    split_ifs <;> exact Or.inl ⟨rfl, rfl⟩
  | some event =>
    dsimp only
    split_ifs with h1 h2 h3 h4 h5 h6 h7 h8
    · exact Or.inl ⟨rfl, rfl⟩
    · exact Or.inl ⟨rfl, rfl⟩
    · exact Or.inl ⟨rfl, rfl⟩
    · exact Or.inl ⟨rfl, rfl⟩
    · exact Or.inl ⟨rfl, rfl⟩
    · exact Or.inl ⟨rfl, rfl⟩
    · exact Or.inl ⟨rfl, rfl⟩
    · exact Or.inr ⟨event, rfl, h8, rfl⟩
    · exact Or.inl ⟨rfl, rfl⟩

/-- A 202 answer is only produced after finding the pool below capacity. -/
theorem serveHTTP_202_pool (parseEvent : List Nat → Option WorkflowJobEvent)
    (h : Handler) (st : HandlerState) (req : Request) (now : Int) :
    (serveHTTP parseEvent h st req now).status = 202 →
    st.poolUsed < h.maxConcurrent := by
  unfold serveHTTP
  cases hp : parseEvent req.body with
  | none =>
    dsimp only
    split_ifs <;> simp
  | some event =>
    dsimp only
    split_ifs with h1 h2 h3 h4 h5 h6 h7 h8
    · simp
    · simp
    · simp
    · simp
    · simp
    · simp
    · simp
    · exact fun _ => h8
    · simp

/-- Every system step preserves the pool invariant: running tasks equal
the pool occupancy, which stays within capacity. -/
theorem sysStep_inv (parseEvent : List Nat → Option WorkflowJobEvent) (h : Handler)
    {a b : SysState} (hstep : SysStep parseEvent h a b)
    (ha : a.running.length = a.hs.poolUsed ∧ a.hs.poolUsed ≤ h.maxConcurrent) :
    b.running.length = b.hs.poolUsed ∧ b.hs.poolUsed ≤ h.maxConcurrent := by
  cases hstep with
  | request req now =>
    rcases serveHTTP_pool parseEvent h a.hs req now with
      ⟨hnone, hpool⟩ | ⟨ev, hsome, hlt, hpool⟩
    · rw [hnone]
      simp only [Option.toList_none, List.append_nil, hpool]
      exact ha
    · rw [hsome]
      simp only [Option.toList_some, List.length_append, List.length_cons,
        List.length_nil, hpool]
      omega
  | complete _outcome ev pre post hrun =>
    rw [hrun] at ha
    simp only [List.length_append, List.length_cons] at ha
    simp only [List.length_append]
    omega

/-- C2: the number of concurrently running provisioning tasks never
exceeds the pool capacity: along every reachable trace the running tasks
equal the pool occupancy and stay within capacity; a request that finds
the pool full never launches and is never answered 202, and when it passed
every earlier check it is answered 503; and a completing task releases its
capacity token whatever its outcome. -/
theorem c2_concurrency_bound (parseEvent : List Nat → Option WorkflowJobEvent)
    (h : Handler) :
    (∀ s, SysReachable parseEvent h s →
        s.running.length = s.hs.poolUsed ∧ s.hs.poolUsed ≤ h.maxConcurrent)
  ∧ (∀ (st : HandlerState) (req : Request) (now : Int),
      h.maxConcurrent ≤ st.poolUsed →
      (serveHTTP parseEvent h st req now).launched = none
      ∧ (serveHTTP parseEvent h st req now).status ≠ 202)
  ∧ (∀ (st : HandlerState) (req : Request) (now : Int) (ev : WorkflowJobEvent),
      req.method = postMethod → req.body.length ≤ maxBodySize →
      (VerifyWebhookSignature req.body req.xHubSignature256 h.webhookSecret
          (requestClientIP req)).fst = true →
      req.xGitHubEvent = workflowJobEventType →
      parseEvent req.body = some ev →
      ev.action = queuedAction →
      hasRequiredLabel ev.workflowJob.labels h.requiredLabel = true →
      (rlAllow h.maxPerRepoPerMin windowSeconds st.buckets ev.repo.fullName now).fst
          = true →
      h.maxConcurrent ≤ st.poolUsed →
      (serveHTTP parseEvent h st req now).status = 503
      ∧ (serveHTTP parseEvent h st req now).launched = none)
  ∧ (∀ (outcome : Bool) (s : SysState) (ev : WorkflowJobEvent)
      (pre post : List WorkflowJobEvent), s.running = pre ++ ev :: post →
      SysStep parseEvent h s ⟨⟨s.hs.buckets, s.hs.poolUsed - 1⟩, pre ++ post⟩) := by
  refine ⟨?_, ?_, ?_, ?_⟩
  · intro s hs
    induction hs with
    | refl => exact ⟨rfl, Nat.zero_le _⟩
    | tail hsteps hstep ih => exact sysStep_inv parseEvent h hstep ih
  · intro st req now hfull
    rcases serveHTTP_pool parseEvent h st req now with ⟨hnone, _⟩ | ⟨ev, _, hlt, _⟩
    · refine ⟨hnone, fun h202 => ?_⟩
      have := serveHTTP_202_pool parseEvent h st req now h202
      omega
    · omega
  · intro st req now ev hm hsz hver het hp hact hlab hrl hfull
    unfold serveHTTP
    rw [if_neg (not_ne_iff.mpr hm), if_neg (Nat.not_lt.mpr hsz),
      if_neg (by simp [hver]), if_neg (not_ne_iff.mpr het), hp]
    dsimp only
    rw [if_neg (not_ne_iff.mpr hact), if_neg (by simp [hlab]),
      if_neg (by simp [hrl]), if_neg (by omega)]
    exact ⟨rfl, rfl⟩
  · intro outcome s ev pre post hrun
    exact SysStep.complete s outcome ev pre post hrun

/-- Witness for C2: with capacity 1, the initial state satisfies the
invariant; a request reaching a full pool launches nothing and is not
answered 202; a fully admissible signed request against a full pool gets
503; and completing the one running task releases its token. -/
theorem c2_witness :
    (sysInit.running.length = sysInit.hs.poolUsed
      ∧ sysInit.hs.poolUsed ≤ cHandler.maxConcurrent)
  ∧ ((serveHTTP cParse cHandler ⟨[], 1⟩ cBadSigRequest 0).launched = none
      ∧ (serveHTTP cParse cHandler ⟨[], 1⟩ cBadSigRequest 0).status ≠ 202)
  ∧ ((serveHTTP cParse cHandler ⟨[], 1⟩ cRequest 0).status = 503
      ∧ (serveHTTP cParse cHandler ⟨[], 1⟩ cRequest 0).launched = none)
  ∧ SysStep cParse cHandler ⟨⟨[], 1⟩, [cEvent]⟩ ⟨⟨[], 0⟩, []⟩ :=
  ⟨(c2_concurrency_bound cParse cHandler).1 sysInit Relation.ReflTransGen.refl,
   (c2_concurrency_bound cParse cHandler).2.1 ⟨[], 1⟩ cBadSigRequest 0 (by decide),
   (c2_concurrency_bound cParse cHandler).2.2.1 ⟨[], 1⟩ cRequest 0 cEvent rfl
     (by decide) (by decide) rfl rfl rfl (by decide) (by decide) (by decide),
   (c2_concurrency_bound cParse cHandler).2.2.2 true ⟨⟨[], 1⟩, [cEvent]⟩ cEvent
     [] [] rfl⟩

end GHRunners
